import Mathlib

/-!
Verification development for the readme-bot repository.

The Section Merge Engine, Response Parser/Validator, Webhook Dispatcher,
comment reporting and the read/commit data flow are embedded shallowly:
JavaScript/TypeScript functions from the source become Lean functions over
strings, lists and explicit state; JavaScript exceptions become an Except
monad; the network is an explicit environment record.

Line-based text processing is done on lists of characters
(a line is a List Char) so that the split/join on the newline character
mirrors the JavaScript String.prototype.split and Array.prototype.join
semantics exactly.
-/

namespace ReadmeBot

/-! ## Character and string helpers (JavaScript semantics) -/

/-- JavaScript regular-expression whitespace class (the common members of the
backslash-s class: space, tab, line feed, vertical tab, form feed,
carriage return; the exotic Unicode space members are not needed by any
input considered here). -/
def jsWs (c : Char) : Bool :=
  c == ' ' || c == '\t' || c == '\n' || c == '\x0b' || c == '\x0c' || c == '\r'

/-- JavaScript line terminators (relevant because the dot in a JavaScript
regular expression without the s flag does not match them). -/
def jsLineTerm (c : Char) : Bool :=
  c == '\n' || c == '\r' || c == '\u2028' || c == '\u2029'

/-- Case-insensitive prefix test on character lists, modelling the i flag of a
JavaScript regular expression restricted to simple case folding. -/
def startsWithCI : List Char → List Char → Bool
  | [], _ => true
  | _ :: _, [] => false
  | p :: ps, c :: cs => (p.toLower == c.toLower) && startsWithCI ps cs

/-- Case-sensitive prefix test on character lists. -/
def startsWithCS : List Char → List Char → Bool
  | [], _ => true
  | _ :: _, [] => false
  | p :: ps, c :: cs => (p == c) && startsWithCS ps cs

/-- Substring containment on character lists, modelling
String.prototype.includes. -/
def listContains (l pat : List Char) : Bool :=
  startsWithCS pat l ||
    match l with
    | [] => false
    | _ :: cs => listContains cs pat

/-- String.prototype.includes. -/
def strContains (s pat : String) : Bool := listContains s.data pat.data

/-- Lower-casing of a character list, modelling String.prototype.toLowerCase
(simple per-character folding). -/
def lowerList (l : List Char) : List Char := l.map Char.toLower

/-- String.prototype.trim: strip whitespace from both ends. -/
def jsTrim (s : String) : String :=
  String.mk (((s.data.dropWhile jsWs).reverse.dropWhile jsWs).reverse)

/-- content.split with the newline separator, modelling the JavaScript
split used by the merge engine: the result is never empty, and splitting the
empty string yields one empty line. -/
def splitNl : List Char → List (List Char)
  | [] => [[]]
  | c :: cs =>
    match splitNl cs with
    | [] => [[c]]
    | h :: t => if c = '\n' then [] :: h :: t else (c :: h) :: t

/-- lines.join with the newline separator. -/
def joinNl : List (List Char) → List Char
  | [] => []
  | [l] => l
  | l :: ls => l ++ '\n' :: joinNl ls

/-! ## Section Merge Engine, from applySingleSuggestion and its helpers in
src/src/github-client.js (the TypeScript lineage of the same client has the
identical algorithm). -/

/-- One documentation suggestion, the shape destructured by the merge engine
(fields section, type, content) together with the metadata fields of the
TypeScript Suggestion type. -/
structure Suggestion where
  type : String
  sectionName : String
  description : String
  priority : String
  content : String
deriving Repr, DecidableEq

/-- The test of the compiled section pattern, caret hash one-to-six
backslash-s star then the regex-escaped section name, with the i flag,
against one line: the escape makes the name a literal, so the pattern holds
exactly when for some k between 1 and 6 the line is k hash marks, then some
run of whitespace characters, then the name case-insensitively. -/
def secTest (name : List Char) (line : List Char) : Bool :=
  (List.range 6).any (fun k => hashesThen (k + 1) line)
where
  skipWsCI (pat : List Char) : List Char → Bool
    | [] => startsWithCI pat []
    | c :: cs => startsWithCI pat (c :: cs) || (jsWs c && skipWsCI pat cs)
  hashesThen : Nat → List Char → Bool
    | 0, l => skipWsCI name l
    | _ + 1, [] => false
    | k + 1, c :: cs => (c == '#') && hashesThen k cs

/-- The heading-line test caret hash one-to-six backslash-s used to find the
end of a section: between one and six hash marks followed by one whitespace
character. -/
def isHeadingLine (line : List Char) : Bool :=
  (List.range 6).any (fun k => hashes (k + 1) line)
where
  hashes : Nat → List Char → Bool
    | 0, l => (match l with | c :: _ => jsWs c | [] => false)
    | _ + 1, [] => false
    | k + 1, c :: cs => (c == '#') && hashes k cs

/-- findSection of github-client.js on the split lines: the index of the
first line matching the section pattern. -/
def findSecIdx (name : List Char) : List (List Char) → Option Nat
  | [] => none
  | l :: ls =>
    if secTest name l then some 0 else (findSecIdx name ls).map (· + 1)

/-- updateSection of github-client.js on the split lines: at the first line
matching the section pattern, replace that line and the following non-heading
lines by the new lines; none when no line matches (the source then returns
the content unchanged). -/
def updateSecLines (name : List Char) (nl : List (List Char)) :
    List (List Char) → Option (List (List Char))
  | [] => none
  | l :: ls =>
    if secTest name l then
      some (nl ++ ls.dropWhile (fun x => !isHeadingLine x))
    else
      (updateSecLines name nl ls).map (l :: ·)

/-- insertAfterSection of github-client.js on the split lines: after the
section of the first line matching the pattern (its end found by the same
non-heading scan), splice an empty line, the new lines, and an empty line. -/
def insertAfterLines (name : List Char) (nl : List (List Char)) :
    List (List Char) → Option (List (List Char))
  | [] => none
  | l :: ls =>
    if secTest name l then
      some (l :: (ls.takeWhile (fun x => !isHeadingLine x) ++
        ([] :: nl ++ [[]]) ++ ls.dropWhile (fun x => !isHeadingLine x)))
    else
      (insertAfterLines name nl ls).map (l :: ·)

/-- The capture of the leftmost match of the pattern: the word after, then
backslash-s plus, then a dot-plus capture anchored at the end, with the i
flag, against the section string; none when the pattern does not match
(in which case applySingleSuggestion falls through to the plain branch). -/
def afterCapture (sec : List Char) : Option (List Char) :=
  scan sec
where
  tryLens (rest : List Char) : Nat → Option (List Char)
    | 0 => none
    | j + 1 =>
      let suffix := rest.drop (j + 1)
      if suffix ≠ [] ∧ suffix.all (fun c => !jsLineTerm c) then some suffix
      else tryLens rest j
  matchHere (l : List Char) : Option (List Char) :=
    if startsWithCI ['a', 'f', 't', 'e', 'r'] l then
      let rest := l.drop 5
      tryLens rest (rest.takeWhile jsWs).length
    else none
  scan : List Char → Option (List Char)
    | [] => none
    | c :: cs =>
      match matchHere (c :: cs) with
      | some cap => some cap
      | none => scan cs

/-- findSection at the string level. -/
def findSection (content : String) (sectionName : String) : Option Nat :=
  findSecIdx sectionName.data (splitNl content.data)

/-- updateSection at the string level (returns the content unchanged when no
line matches, as the source does). -/
def updateSection (content : String) (sectionName : String)
    (newContent : String) : String :=
  match updateSecLines sectionName.data (splitNl newContent.data)
      (splitNl content.data) with
  | some ls => String.mk (joinNl ls)
  | none => content

/-- insertAfterSection at the string level (appends at the end when no line
matches, as the source does). -/
def insertAfterSection (content : String) (afterSectionName : String)
    (newContent : String) : String :=
  match insertAfterLines afterSectionName.data (splitNl newContent.data)
      (splitNl content.data) with
  | some ls => String.mk (joinNl ls)
  | none => content ++ "\n\n" ++ newContent

/-- applySingleSuggestion of github-client.js for a well-typed suggestion
(string section and content): empty content is a no-op; a section containing
the new-section directive appends at the end; a section containing the
after directive inserts after the named section when the after pattern
matches, otherwise control falls through; otherwise an existing matching
section is replaced in place, and a missing one appends at the end. -/
def applySingleSuggestion (content : String) (s : Suggestion) : String :=
  if s.content = "" then content
  else
    let secLower := lowerList s.sectionName.data
    if listContains secLower ("new section").data then
      content ++ "\n\n" ++ s.content
    else
      let plain :=
        match findSecIdx s.sectionName.data (splitNl content.data) with
        | some _ => updateSection content s.sectionName s.content
        | none => content ++ "\n\n" ++ s.content
      if listContains secLower ("after ").data then
        match afterCapture s.sectionName.data with
        | some aSec =>
          match insertAfterLines aSec (splitNl s.content.data)
              (splitNl content.data) with
          | some ls => String.mk (joinNl ls)
          | none => content ++ "\n\n" ++ s.content
        | none => plain
      else plain

/-- applySuggestionsToReadme of github-client.js: left-to-right fold of the
single-suggestion step. -/
def applySuggestionsToReadme (readmeContent : String)
    (suggestions : List Suggestion) : String :=
  suggestions.foldl applySingleSuggestion readmeContent

/-! ## Lemmas on line splitting and scanning -/

theorem splitNlConsEq (c : Char) (cs : List Char) (a : List Char)
    (t : List (List Char)) (h : splitNl cs = a :: t) :
    splitNl (c :: cs) =
      if c = '\n' then [] :: a :: t else (c :: a) :: t := by
  simp only [splitNl, h]

theorem splitNlNeNil (cs : List Char) : splitNl cs ≠ [] := by
  induction cs with
  | nil => simp [splitNl]
  | cons c cs ih =>
    cases h : splitNl cs with
    | nil => exact absurd h ih
    | cons a t =>
      rw [splitNlConsEq c cs a t h]
      by_cases hc : c = '\n' <;> simp [hc]

theorem splitNlNoNewline (cs : List Char) :
    ∀ l ∈ splitNl cs, '\n' ∉ l := by
  induction cs with
  | nil =>
    intro l hl
    simp only [splitNl, List.mem_singleton] at hl
    subst hl; simp
  | cons c cs ih =>
    intro l hl
    cases h : splitNl cs with
    | nil => exact absurd h (splitNlNeNil cs)
    | cons a t =>
      rw [splitNlConsEq c cs a t h] at hl
      by_cases hc : c = '\n'
      · rw [if_pos hc] at hl
        rcases List.mem_cons.mp hl with h1 | h1
        · subst h1; simp
        · exact ih l (h ▸ h1)
      · rw [if_neg hc] at hl
        rcases List.mem_cons.mp hl with h1 | h1
        · subst h1
          intro hmem
          rcases List.mem_cons.mp hmem with h2 | h2
          · exact hc h2.symm
          · exact ih a (h ▸ List.mem_cons_self a t) h2
        · exact ih l (h ▸ List.mem_cons_of_mem a h1)

theorem splitNlOfNoNewline (l : List Char) (h : '\n' ∉ l) :
    splitNl l = [l] := by
  induction l with
  | nil => rfl
  | cons c cs ih =>
    have hc : c ≠ '\n' := fun hcc => h (hcc ▸ List.mem_cons_self c cs)
    have hcs : '\n' ∉ cs := fun hm => h (List.mem_cons_of_mem c hm)
    rw [splitNlConsEq c cs cs [] (ih hcs), if_neg hc]

theorem splitNlAppendNewline (l t : List Char) (h : '\n' ∉ l) :
    splitNl (l ++ '\n' :: t) = l :: splitNl t := by
  induction l with
  | nil =>
    show splitNl ('\n' :: t) = [] :: splitNl t
    cases ht : splitNl t with
    | nil => exact absurd ht (splitNlNeNil t)
    | cons a r => rw [splitNlConsEq '\n' t a r ht, if_pos rfl]
  | cons c cs ih =>
    have hc : c ≠ '\n' := fun hcc => h (hcc ▸ List.mem_cons_self c cs)
    have hcs : '\n' ∉ cs := fun hm => h (List.mem_cons_of_mem c hm)
    show splitNl (c :: (cs ++ '\n' :: t)) = (c :: cs) :: splitNl t
    rw [splitNlConsEq c (cs ++ '\n' :: t) cs (splitNl t) (ih hcs), if_neg hc]

theorem splitNlJoinNl (ls : List (List Char)) (h1 : ls ≠ [])
    (h2 : ∀ l ∈ ls, '\n' ∉ l) : splitNl (joinNl ls) = ls := by
  induction ls with
  | nil => exact absurd rfl h1
  | cons a ls ih =>
    cases ls with
    | nil => exact splitNlOfNoNewline a (h2 a (List.mem_cons_self a []))
    | cons b ls2 =>
      have ha : '\n' ∉ a := h2 a (List.mem_cons_self a (b :: ls2))
      have hj : joinNl (a :: b :: ls2) = a ++ '\n' :: joinNl (b :: ls2) := rfl
      rw [hj, splitNlAppendNewline a _ ha,
        ih (by simp) (fun l hl => h2 l (List.mem_cons_of_mem a hl))]

theorem dropWhileAppendAll {α : Type} (p : α → Bool) (a b : List α)
    (h : ∀ x ∈ a, p x = true) :
    (a ++ b).dropWhile p = b.dropWhile p := by
  induction a with
  | nil => rfl
  | cons c cs ih =>
    simp only [List.cons_append, List.dropWhile]
    rw [h c (List.mem_cons_self c cs)]
    exact ih (fun x hx => h x (List.mem_cons_of_mem c hx))

theorem dropWhileIdem {α : Type} (p : α → Bool) (l : List α) :
    (l.dropWhile p).dropWhile p = l.dropWhile p := by
  induction l with
  | nil => rfl
  | cons c cs ih =>
    cases hc : p c
    · simp only [List.dropWhile, hc]
    · simp only [List.dropWhile, hc]
      exact ih

theorem memOfMemDropWhile {α : Type} (p : α → Bool) (l : List α) (x : α)
    (h : x ∈ l.dropWhile p) : x ∈ l := by
  induction l with
  | nil => simp at h
  | cons c cs ih =>
    cases hc : p c
    · rw [List.dropWhile, hc] at h
      exact h
    · rw [List.dropWhile, hc] at h
      exact List.mem_cons_of_mem c (ih h)

theorem findSecIdxCons (name l : List Char) (ls : List (List Char)) :
    findSecIdx name (l :: ls) =
      if secTest name l then some 0
      else (findSecIdx name ls).map (· + 1) := rfl

theorem updateSecLinesCons (name : List Char) (nl : List (List Char))
    (l : List Char) (ls : List (List Char)) :
    updateSecLines name nl (l :: ls) =
      if secTest name l then
        some (nl ++ ls.dropWhile (fun x => !isHeadingLine x))
      else (updateSecLines name nl ls).map (l :: ·) := rfl

theorem findSecIdxDecomp (name : List Char) (lines : List (List Char))
    (i : Nat) (h : findSecIdx name lines = some i) :
    ∃ pre c post, lines = pre ++ c :: post ∧ pre.length = i ∧
      (∀ l ∈ pre, secTest name l = false) ∧ secTest name c = true := by
  induction lines generalizing i with
  | nil => simp [findSecIdx] at h
  | cons l ls ih =>
    rw [findSecIdxCons] at h
    by_cases hl : secTest name l = true
    · rw [if_pos hl] at h
      refine ⟨[], l, ls, rfl, ?_, by simp, hl⟩
      exact Option.some.inj h
    · have hb : secTest name l = false := by
        cases h0 : secTest name l
        · rfl
        · exact absurd h0 hl
      rw [if_neg hl, Option.map_eq_some'] at h
      obtain ⟨j, hj, hij⟩ := h
      obtain ⟨pre, c, post, hsplit, hlen, hpre, hc⟩ := ih j hj
      refine ⟨l :: pre, c, post, by rw [hsplit, List.cons_append],
        by simp [hlen, hij], ?_, hc⟩
      intro x hx
      rcases List.mem_cons.mp hx with h1 | h1
      · exact h1 ▸ hb
      · exact hpre x h1

theorem findSecIdxPrepend (name : List Char) (pre : List (List Char))
    (c : List Char) (z : List (List Char))
    (hp : ∀ l ∈ pre, secTest name l = false) (hc : secTest name c = true) :
    findSecIdx name (pre ++ c :: z) = some pre.length := by
  induction pre with
  | nil =>
    rw [List.nil_append, findSecIdxCons, if_pos hc]
    rfl
  | cons a pre ih =>
    have ha : ¬ (secTest name a = true) := by
      simp [hp a (List.mem_cons_self a pre)]
    rw [List.cons_append, findSecIdxCons, if_neg ha,
      ih (fun l hl => hp l (List.mem_cons_of_mem a hl))]
    rfl

theorem updateSecLinesPrepend (name : List Char) (nl : List (List Char))
    (pre : List (List Char)) (c : List Char) (z : List (List Char))
    (hp : ∀ l ∈ pre, secTest name l = false) (hc : secTest name c = true) :
    updateSecLines name nl (pre ++ c :: z) =
      some (pre ++ (nl ++ z.dropWhile (fun x => !isHeadingLine x))) := by
  induction pre with
  | nil =>
    rw [List.nil_append, updateSecLinesCons, if_pos hc]
    rfl
  | cons a pre ih =>
    have ha : ¬ (secTest name a = true) := by
      simp [hp a (List.mem_cons_self a pre)]
    rw [List.cons_append, updateSecLinesCons, if_neg ha,
      ih (fun l hl => hp l (List.mem_cons_of_mem a hl))]
    rfl

/-! ## Characterisation of one update-section application -/

theorem applySingleUpdateEq (D : String) (s : Suggestion)
    (pre : List (List Char)) (c0 : List Char) (post : List (List Char))
    (hbody : s.content ≠ "")
    (hns : listContains (lowerList s.sectionName.data) ("new section").data
      = false)
    (haf : listContains (lowerList s.sectionName.data) ("after ").data
      = false)
    (hD : splitNl D.data = pre ++ c0 :: post)
    (hp : ∀ l ∈ pre, secTest s.sectionName.data l = false)
    (hc : secTest s.sectionName.data c0 = true) :
    applySingleSuggestion D s =
      String.mk (joinNl (pre ++ (splitNl s.content.data ++
        post.dropWhile (fun x => !isHeadingLine x)))) := by
  unfold applySingleSuggestion
  rw [if_neg hbody, if_neg (by simp [hns]), if_neg (by simp [haf])]
  rw [hD, findSecIdxPrepend _ _ _ _ hp hc]
  unfold updateSection
  rw [hD, updateSecLinesPrepend _ _ _ _ _ hp hc]

/-! ## Idempotence of the update-section merge -/

/-- Claim C1 (amended): re-applying an update-section suggestion is the
identity provided the body re-establishes the heading: the first body line
itself matches the section pattern and no later body line is a heading
line. (The claim as stated, without the two body-side conditions, is false:
see the counterexample theorem.) -/
theorem mergeUpdateIdem (D : String) (s : Suggestion)
    (c : List Char) (rest : List (List Char))
    (hbody : s.content ≠ "")
    (hns : listContains (lowerList s.sectionName.data) ("new section").data
      = false)
    (haf : listContains (lowerList s.sectionName.data) ("after ").data
      = false)
    (hfind : (findSection D s.sectionName).isSome = true)
    (hsplit : splitNl s.content.data = c :: rest)
    (hhead : secTest s.sectionName.data c = true)
    (hrest : ∀ l ∈ rest, isHeadingLine l = false) :
    applySuggestionsToReadme (applySuggestionsToReadme D [s]) [s] =
      applySuggestionsToReadme D [s] := by
  have hone : ∀ X : String,
      applySuggestionsToReadme X [s] = applySingleSuggestion X s :=
    fun X => rfl
  simp only [hone]
  obtain ⟨i, hi⟩ := Option.isSome_iff_exists.mp hfind
  obtain ⟨pre, c0, post, hD, _, hp, hc0⟩ :=
    findSecIdxDecomp s.sectionName.data (splitNl D.data) i hi
  set pnh : List Char → Bool := fun x => !isHeadingLine x with hpnh
  have h1 := applySingleUpdateEq D s pre c0 post hbody hns haf hD hp hc0
  rw [h1]
  set kept : List (List Char) := post.dropWhile pnh with hkept
  set out : List (List Char) := pre ++ (splitNl s.content.data ++ kept)
    with hout
  have houtSplit : splitNl (String.mk (joinNl out)).data = out := by
    have hne : out ≠ [] := by
      rw [hout, hsplit]
      intro hEq
      exact List.append_ne_nil_of_right_ne_nil pre (by simp) hEq
    have hmem : ∀ l ∈ out, '\n' ∉ l := by
      intro l hl
      rw [hout] at hl
      rcases List.mem_append.mp hl with h2 | h2
      · exact splitNlNoNewline D.data l
          (hD ▸ List.mem_append.mpr (Or.inl h2))
      · rcases List.mem_append.mp h2 with h3 | h3
        · exact splitNlNoNewline s.content.data l (hsplit ▸ h3)
        · have : l ∈ post := memOfMemDropWhile pnh post l (hkept ▸ h3)
          exact splitNlNoNewline D.data l
            (hD ▸ List.mem_append.mpr
              (Or.inr (List.mem_cons_of_mem c0 this)))
    exact splitNlJoinNl out hne hmem
  have hD2 : splitNl (String.mk (joinNl out)).data =
      pre ++ c :: (rest ++ kept) := by
    rw [houtSplit, hout, hsplit]
    simp
  have h2 := applySingleUpdateEq (String.mk (joinNl out)) s pre c
    (rest ++ kept) hbody hns haf hD2 hp hhead
  rw [h2]
  have hkd : (rest ++ kept).dropWhile pnh = kept := by
    rw [dropWhileAppendAll pnh rest kept
      (fun x hx => by simp [hpnh, hrest x hx]), hkept]
    exact dropWhileIdem pnh post
  rw [hkd, hsplit]
  rw [hout, hsplit]

/-- Claim C1 as stated is false: for the document with a Setup heading and a
suggestion whose body does not re-establish the heading, the second
application appends instead of replacing, although the target names an
existing heading, the body is non-empty, and the section name holds no
directive. -/
theorem mergeUpdateNotIdempotent :
    let s : Suggestion :=
      { type := "setup", sectionName := "Setup", description := "d",
        priority := "medium", content := "y" }
    let D := "## Setup\nx"
    s.content ≠ "" ∧
    listContains (lowerList s.sectionName.data) ("new section").data
      = false ∧
    listContains (lowerList s.sectionName.data) ("after ").data = false ∧
    (findSection D s.sectionName).isSome = true ∧
    applySuggestionsToReadme (applySuggestionsToReadme D [s]) [s] ≠
      applySuggestionsToReadme D [s] := by
  refine ⟨by decide, by decide, by decide, by decide, by decide⟩

/-- Witness for the amended idempotence theorem at the Scenario A document
and suggestion (whose body starts with the Setup heading). -/
theorem mergeUpdateIdemWitness :
    applySuggestionsToReadme
        (applySuggestionsToReadme "# Title\n\n## Setup\nrun npm install\n"
          [{ type := "setup", sectionName := "Setup", description := "d",
             priority := "high", content := "## Setup\nrun npm ci\n" }])
        [{ type := "setup", sectionName := "Setup", description := "d",
           priority := "high", content := "## Setup\nrun npm ci\n" }] =
      applySuggestionsToReadme "# Title\n\n## Setup\nrun npm install\n"
        [{ type := "setup", sectionName := "Setup", description := "d",
           priority := "high", content := "## Setup\nrun npm ci\n" }] := by
  exact mergeUpdateIdem "# Title\n\n## Setup\nrun npm install\n"
    { type := "setup", sectionName := "Setup", description := "d",
      priority := "high", content := "## Setup\nrun npm ci\n" }
    ("## Setup").data [("run npm ci").data, []]
    (by decide) (by decide) (by decide) (by decide) (by decide) (by decide)
    (by decide)

/-! ## Scenario A and the missing-section fallback -/

/-- Claim C7: the Scenario A merge replaces the Setup block exactly and
leaves the Title section byte-identical. -/
theorem scenarioAReplacesSetupBlock :
    applySuggestionsToReadme "# Title\n\n## Setup\nrun npm install\n"
        [{ type := "setup", sectionName := "Setup",
           description := "use npm ci", priority := "high",
           content := "## Setup\nrun npm ci\n" }] =
      "# Title\n\n" ++ "## Setup\nrun npm ci\n" := by decide

/-- Claim C8: a plain section name matching no heading appends the body at
the end after a blank line, exactly as a new-section suggestion does. -/
theorem mergeMissingSectionAppends (D : String) (s : Suggestion)
    (hbody : s.content ≠ "")
    (hns : listContains (lowerList s.sectionName.data) ("new section").data
      = false)
    (haf : listContains (lowerList s.sectionName.data) ("after ").data
      = false)
    (hfind : findSection D s.sectionName = none) :
    applySuggestionsToReadme D [s] = D ++ "\n\n" ++ s.content ∧
    applySuggestionsToReadme D [s] =
      applySuggestionsToReadme D
        [{ s with sectionName := "new section" }] := by
  have hone : applySuggestionsToReadme D [s] = applySingleSuggestion D s :=
    rfl
  have hmain : applySingleSuggestion D s = D ++ "\n\n" ++ s.content := by
    unfold applySingleSuggestion
    rw [if_neg hbody, if_neg (by simp [hns]), if_neg (by simp [haf])]
    unfold findSection at hfind
    rw [hfind]
  constructor
  · rw [hone, hmain]
  · have hns2 : applySuggestionsToReadme D
        [{ s with sectionName := "new section" }] =
        D ++ "\n\n" ++ s.content := by
      show applySingleSuggestion D { s with sectionName := "new section" } =
        D ++ "\n\n" ++ s.content
      have hNS : listContains (lowerList ("new section").data)
          ("new section").data = true := by decide
      unfold applySingleSuggestion
      rw [if_neg hbody, if_pos hNS]
    rw [hone, hmain, hns2]

/-- Witness for the missing-section fallback: the Usage section is absent
from the document, so the body is appended. -/
theorem mergeMissingSectionAppendsWitness :
    applySuggestionsToReadme "# Title\nx"
        [{ type := "feature", sectionName := "Usage", description := "d",
           priority := "low", content := "## Usage\nu" }] =
      "# Title\nx" ++ "\n\n" ++ "## Usage\nu" ∧
    applySuggestionsToReadme "# Title\nx"
        [{ type := "feature", sectionName := "Usage", description := "d",
           priority := "low", content := "## Usage\nu" }] =
      applySuggestionsToReadme "# Title\nx"
        [{ type := "feature", sectionName := "new section",
           description := "d", priority := "low",
           content := "## Usage\nu" }] := by
  exact mergeMissingSectionAppends "# Title\nx"
    { type := "feature", sectionName := "Usage", description := "d",
      priority := "low", content := "## Usage\nu" }
    (by decide) (by decide) (by decide) (by decide)

/-! ## JSON values and structural decoding

The Response Parser/Validator calls the JavaScript built-in JSON.parse on
the extracted span. JSON.parse is modelled by an executable recursive
descent parser over the JSON grammar; numbers are carried as their lexemes
(no numeric value of a suggestion ever reaches the merged document or a
validation check, only the category of the value matters). -/

inductive Json where
  | null
  | bool (b : Bool)
  | num (lexeme : String)
  | str (s : String)
  | arr (elems : List Json)
  | obj (fields : List (String × Json))

/-- JSON grammar whitespace. -/
def jsonWs (c : Char) : Bool :=
  c == ' ' || c == '\t' || c == '\n' || c == '\r'

/-- Decimal digit test. -/
def isDigitCh (c : Char) : Bool := '0' ≤ c ∧ c ≤ '9'

/-- Hexadecimal digit value. -/
def hexVal (c : Char) : Option Nat :=
  if '0' ≤ c ∧ c ≤ '9' then some (c.toNat - '0'.toNat)
  else if 'a' ≤ c ∧ c ≤ 'f' then some (c.toNat - 'a'.toNat + 10)
  else if 'A' ≤ c ∧ c ≤ 'F' then some (c.toNat - 'A'.toNat + 10)
  else none

/-- The body of a JSON string after the opening quote: the decoded
characters and the remainder after the closing quote. Standard escapes and
four-digit unicode escapes are decoded; a raw control character is
rejected, as JSON.parse rejects it. -/
def jsonStringRest : Nat → List Char → Option (List Char × List Char)
  | 0, _ => none
  | _ + 1, [] => none
  | fuel + 1, c :: cs =>
    if c = '"' then some ([], cs)
    else if c = '\\' then
      match cs with
      | [] => none
      | e :: cs2 =>
        let plain (d : Char) (r : List Char) :=
          (jsonStringRest fuel r).map (fun p => (d :: p.1, p.2))
        if e = '"' then plain '"' cs2
        else if e = '\\' then plain '\\' cs2
        else if e = '/' then plain '/' cs2
        else if e = 'b' then plain '\x08' cs2
        else if e = 'f' then plain '\x0c' cs2
        else if e = 'n' then plain '\n' cs2
        else if e = 'r' then plain '\r' cs2
        else if e = 't' then plain '\t' cs2
        else if e = 'u' then
          match cs2 with
          | h1 :: h2 :: h3 :: h4 :: cs3 =>
            match hexVal h1, hexVal h2, hexVal h3, hexVal h4 with
            | some v1, some v2, some v3, some v4 =>
              plain (Char.ofNat (((v1 * 16 + v2) * 16 + v3) * 16 + v4)) cs3
            | _, _, _, _ => none
          | _ => none
        else none
    else if c.toNat < 32 then none
    else (jsonStringRest fuel cs).map (fun p => (c :: p.1, p.2))

/-- A JSON number lexeme at the head of the input: optional minus, integer
part (a single zero or a nonzero-led digit run), optional fraction,
optional exponent. Returns the lexeme and the remainder. -/
def jsonNumber (l : List Char) : Option (List Char × List Char) :=
  let (signPart, l1) :=
    match l with
    | '-' :: r => (['-'], r)
    | _ => ([], l)
  match l1 with
  | [] => none
  | d :: r =>
    if d = '0' then
      let (fr, r2) := fracExp r
      some (signPart ++ ['0'] ++ fr, r2)
    else if isDigitCh d then
      let digits := r.takeWhile isDigitCh
      let r1 := r.drop digits.length
      let (fr, r2) := fracExp r1
      some (signPart ++ (d :: digits) ++ fr, r2)
    else none
where
  fracExp (r : List Char) : List Char × List Char :=
    let (fracPart, r1) :=
      match r with
      | '.' :: r0 =>
        let ds := r0.takeWhile isDigitCh
        if ds = [] then ([], r)
        else ('.' :: ds, r0.drop ds.length)
      | _ => ([], r)
    match r1 with
    | e :: r2 =>
      if e = 'e' ∨ e = 'E' then
        let (sgn, r3) :=
          match r2 with
          | s :: r4 => if s = '+' ∨ s = '-' then ([s], r4) else ([], r2)
          | [] => ([], r2)
        let ds := r3.takeWhile isDigitCh
        if ds = [] then (fracPart, r1)
        else (fracPart ++ (e :: sgn) ++ ds, r3.drop ds.length)
      else (fracPart, r1)
    | [] => (fracPart, r1)

mutual

/-- One JSON value at the head of the input (after leading whitespace) and
the remainder. -/
def jsonValue : Nat → List Char → Option (Json × List Char)
  | 0, _ => none
  | fuel + 1, l =>
    let l := l.dropWhile jsonWs
    match l with
    | [] => none
    | c :: cs =>
      if c = '"' then
        (jsonStringRest (cs.length + 1) cs).map
          (fun p => (Json.str (String.mk p.1), p.2))
      else if c = '\x7b' then jsonObjRest fuel cs
      else if c = '[' then jsonArrRest fuel cs
      else if startsWithCS ("true").data l then
        some (Json.bool true, l.drop 4)
      else if startsWithCS ("false").data l then
        some (Json.bool false, l.drop 5)
      else if startsWithCS ("null").data l then
        some (Json.null, l.drop 4)
      else (jsonNumber l).map (fun p => (Json.num (String.mk p.1), p.2))

/-- The remainder of a JSON object after the opening brace. -/
def jsonObjRest : Nat → List Char → Option (Json × List Char)
  | 0, _ => none
  | fuel + 1, l =>
    let l1 := l.dropWhile jsonWs
    match l1 with
    | '\x7d' :: r => some (Json.obj [], r)
    | _ => jsonMembers fuel l1 []

/-- The member list of a JSON object, accumulating parsed pairs. -/
def jsonMembers : Nat → List Char → List (String × Json) →
    Option (Json × List Char)
  | 0, _, _ => none
  | fuel + 1, l, acc =>
    match l.dropWhile jsonWs with
    | '"' :: r =>
      match jsonStringRest (r.length + 1) r with
      | none => none
      | some (k, r1) =>
        match r1.dropWhile jsonWs with
        | ':' :: r2 =>
          match jsonValue fuel r2 with
          | none => none
          | some (v, r3) =>
            match r3.dropWhile jsonWs with
            | ',' :: r4 => jsonMembers fuel r4 (acc ++ [(String.mk k, v)])
            | '\x7d' :: r4 => some (Json.obj (acc ++ [(String.mk k, v)]), r4)
            | _ => none
        | _ => none
    | _ => none

/-- The remainder of a JSON array after the opening bracket. -/
def jsonArrRest : Nat → List Char → Option (Json × List Char)
  | 0, _ => none
  | fuel + 1, l =>
    let l1 := l.dropWhile jsonWs
    match l1 with
    | ']' :: r => some (Json.arr [], r)
    | _ => jsonItems fuel l1 []

/-- The item list of a JSON array, accumulating parsed values. -/
def jsonItems : Nat → List Char → List Json → Option (Json × List Char)
  | 0, _, _ => none
  | fuel + 1, l, acc =>
    match jsonValue fuel l with
    | none => none
    | some (v, r) =>
      match r.dropWhile jsonWs with
      | ',' :: r2 => jsonItems fuel r2 (acc ++ [v])
      | ']' :: r2 => some (Json.arr (acc ++ [v]), r2)
      | _ => none

end

/-- JSON.parse: one JSON value covering the entire input up to trailing
whitespace; none models the SyntaxError throw. -/
def jsonParse (s : String) : Option Json :=
  match jsonValue (4 * s.data.length + 8) s.data with
  | none => none
  | some (v, rest) => if rest.dropWhile jsonWs = [] then some v else none

/-- Property access on a parsed JSON object, with the JavaScript rule that
a later duplicate key overwrites an earlier one; undefined is none. -/
def getFieldPairs (k : String) : List (String × Json) → Option Json
  | [] => none
  | (k2, v) :: rest =>
    match getFieldPairs k rest with
    | some v2 => some v2
    | none => if k2 = k then some v else none

/-- Property access on a parsed JSON value (undefined on non-objects). -/
def getField (j : Json) (k : String) : Option Json :=
  match j with
  | Json.obj fs => getFieldPairs k fs
  | _ => none

/-! ## Response Parser/Validator, from parseResponse in
src/src/claude-client.ts (identical in the typescript webhook lineage). -/

/-- Drop everything after the last closing brace of the list; none when the
list holds no closing brace. -/
def cutLastRBrace (l : List Char) : Option (List Char) :=
  match l.reverse.dropWhile (fun c => c != '\x7d') with
  | [] => none
  | r => some r.reverse

/-- The match of the regular expression open-brace, bracketed
whitespace-or-nonwhitespace star, close-brace against the raw text: the
star is greedy and the bracket class matches every character, so the match
runs from the first opening brace to the last closing brace of the whole
text, provided a closing brace follows the first opening brace. -/
def extractSpanChars : List Char → Option (List Char)
  | [] => none
  | c :: cs =>
    if c = '\x7b' then cutLastRBrace (c :: cs) else extractSpanChars cs

/-- The jsonMatch step of parseResponse at the string level. -/
def extractJsonSpan (s : String) : Option String :=
  (extractSpanChars s.data).map String.mk

/-- The AnalysisResult value produced by parseResponse: the code returns
the raw parsed object after checking only two fields, so the suggestion
elements stay raw JSON values and the error property is whatever the parsed
object carried (the catch branch stores a diagnostic string there). -/
structure AnalysisResultJ where
  needsUpdate : Bool
  suggestions : List Json
  error : Option Json

/-- The try-block of parseResponse after the regex match, together with the
catch branch: absence of a span, a JSON.parse throw, a non-boolean
needsUpdate or a non-array suggestions each fall to the safe fallback with
a diagnostic; otherwise the parsed object itself is returned, its fields
read off the raw JSON. The JSON.parse SyntaxError message is modelled by a
fixed non-empty text. -/
def parseResponseWithSpan : Option String → AnalysisResultJ
  | none =>
    { needsUpdate := false, suggestions := [],
      error := some (Json.str
        "Failed to parse response: No JSON found in response") }
  | some span =>
    match jsonParse span with
    | none =>
      { needsUpdate := false, suggestions := [],
        error := some (Json.str
          "Failed to parse response: Unexpected token in JSON") }
    | some parsed =>
      match getField parsed "needsUpdate" with
      | some (Json.bool b) =>
        match getField parsed "suggestions" with
        | some (Json.arr l) =>
          { needsUpdate := b, suggestions := l,
            error := getField parsed "error" }
        | _ =>
          { needsUpdate := false, suggestions := [],
            error := some (Json.str
              "Failed to parse response: Invalid response: suggestions must be array") }
      | _ =>
        { needsUpdate := false, suggestions := [],
          error := some (Json.str
            "Failed to parse response: Invalid response: needsUpdate must be boolean") }

/-- parseResponse of claude-client.ts. -/
def parseResponse (response : String) : AnalysisResultJ :=
  parseResponseWithSpan (extractJsonSpan response)

/-- Modelled from the spec: the first balanced brace span of the raw text,
by depth counting from the first opening brace (the comparison definition
for the span the parser is specified to locate). -/
def specFirstBalancedSpanChars : List Char → Option (List Char)
  | [] => none
  | c :: cs =>
    if c = '\x7b' then balance 1 [c] cs else specFirstBalancedSpanChars cs
where
  balance : Nat → List Char → List Char → Option (List Char)
    | _, _, [] => none
    | depth, acc, c :: cs =>
      if c = '\x7b' then balance (depth + 1) (acc ++ [c]) cs
      else if c = '\x7d' then
        if depth = 1 then some (acc ++ [c])
        else balance (depth - 1) (acc ++ [c]) cs
      else balance depth (acc ++ [c]) cs

/-- Modelled from the spec, at the string level. -/
def specFirstBalancedSpan (s : String) : Option String :=
  (specFirstBalancedSpanChars s.data).map String.mk

/-! ## The span the parser decodes (claim C3) -/

theorem strDataAppend (s t : String) : (s ++ t).data = s.data ++ t.data := by
  cases s; cases t; rfl

theorem dropWhileAllNil {α : Type} (p : α → Bool) (l : List α)
    (h : ∀ x ∈ l, p x = true) : l.dropWhile p = [] := by
  induction l with
  | nil => rfl
  | cons c cs ih =>
    rw [List.dropWhile, h c (List.mem_cons_self c cs)]
    exact ih (fun x hx => h x (List.mem_cons_of_mem c hx))

theorem cutLastRBraceNone (l : List Char) (h : ∀ c ∈ l, c ≠ '\x7d') :
    cutLastRBrace l = none := by
  unfold cutLastRBrace
  rw [dropWhileAllNil _ _ (fun c hc => by
    simp [List.mem_reverse.mp hc, h c (List.mem_reverse.mp hc)])]

theorem cutLastRBraceAppend (l b : List Char)
    (h : ∀ c ∈ b, c ≠ '\x7d') :
    cutLastRBrace (l ++ b) = cutLastRBrace l := by
  unfold cutLastRBrace
  rw [List.reverse_append, dropWhileAppendAll _ _ _ (fun c hc => by
    simp [h c (List.mem_reverse.mp hc)])]

theorem extractSpanCharsNone (l : List Char) (h : ∀ c ∈ l, c ≠ '\x7d') :
    extractSpanChars l = none := by
  induction l with
  | nil => rfl
  | cons c cs ih =>
    rw [extractSpanChars]
    by_cases hc : c = '\x7b'
    · rw [if_pos hc]
      exact cutLastRBraceNone (c :: cs) h
    · rw [if_neg hc]
      exact ih (fun x hx => h x (List.mem_cons_of_mem c hx))

theorem extractSpanCharsAppend (a b : List Char)
    (h : ∀ c ∈ b, c ≠ '\x7d') :
    extractSpanChars (a ++ b) = extractSpanChars a := by
  induction a with
  | nil => exact extractSpanCharsNone b h
  | cons c a2 ih =>
    rw [List.cons_append, extractSpanChars, extractSpanChars]
    by_cases hc : c = '\x7b'
    · rw [if_pos hc, if_pos hc, ← List.cons_append]
      exact cutLastRBraceAppend (c :: a2) b h
    · rw [if_neg hc, if_neg hc]
      exact ih

/-- Claim C3 (amended): the regex match is greedy, so the decoded span runs
from the first opening brace to the last closing brace of the whole raw
text, not to the close of the first balanced span; consequently only text
holding no closing brace can be appended without affecting what is
decoded. -/
theorem parseResponseTrailingNoRBrace (s t : String)
    (h : ∀ c ∈ t.data, c ≠ '\x7d') :
    parseResponse (s ++ t) = parseResponse s := by
  unfold parseResponse extractJsonSpan
  rw [strDataAppend, extractSpanCharsAppend s.data t.data h]

/-- Witness for the amended claim: appending brace-free prose after the
JSON object leaves the parse unchanged. -/
theorem parseResponseTrailingNoRBraceWitness :
    parseResponse
        ("\x7b\"needsUpdate\": false, \"suggestions\": []\x7d" ++
          " trailing prose") =
      parseResponse "\x7b\"needsUpdate\": false, \"suggestions\": []\x7d" := by
  exact parseResponseTrailingNoRBrace
    "\x7b\"needsUpdate\": false, \"suggestions\": []\x7d" " trailing prose"
    (by decide)

/-- Claim C3 as stated is false: on a raw text that is a balanced JSON
object followed by a stray brace pair, the first balanced span is the
object alone, yet the code hands the span running to the last closing
brace to the decoder, which rejects it, so text after the first balanced
span changed what was decoded. -/
theorem parseResponseNotFirstBalanced :
    specFirstBalancedSpan
        ("\x7b\"needsUpdate\": true, \"suggestions\": []\x7d" ++ " \x7b\x7d") =
      some "\x7b\"needsUpdate\": true, \"suggestions\": []\x7d" ∧
    extractJsonSpan
        ("\x7b\"needsUpdate\": true, \"suggestions\": []\x7d" ++ " \x7b\x7d") =
      some ("\x7b\"needsUpdate\": true, \"suggestions\": []\x7d" ++
        " \x7b\x7d") ∧
    parseResponse "\x7b\"needsUpdate\": true, \"suggestions\": []\x7d" =
      { needsUpdate := true, suggestions := [], error := none } ∧
    (parseResponse
        ("\x7b\"needsUpdate\": true, \"suggestions\": []\x7d" ++
          " \x7b\x7d")).needsUpdate = false ∧
    (parseResponse
        ("\x7b\"needsUpdate\": true, \"suggestions\": []\x7d" ++
          " \x7b\x7d")).error.isSome = true := by
  refine ⟨rfl, rfl, rfl, rfl, rfl⟩

/-! ## Total recovery of the parser (claim C4) -/

/-- Whether the raw text passes span extraction, structural decode and the
two shape checks (the condition under which parseResponse returns the
parsed object itself rather than the fallback). -/
def decodeOk (s : String) : Bool :=
  match extractJsonSpan s with
  | none => false
  | some span =>
    match jsonParse span with
    | none => false
    | some parsed =>
      match getField parsed "needsUpdate" with
      | some (Json.bool _) =>
        match getField parsed "suggestions" with
        | some (Json.arr _) => true
        | _ => false
      | _ => false

/-- Claim C4 (amended): parseResponse is a total function, and whenever the
raw text fails extraction, decode or validation the result is exactly the
fallback, needsUpdate false, no suggestions and a non-empty diagnostic
string; in particular any text without an opening brace yields the
no-JSON-found diagnostic. (The unamended claim quantified over every
result carrying a diagnostic; it fails because a successfully validated
object's own error property is passed through, see the counterexample.) -/
theorem extractSpanCharsNoLBrace (l : List Char)
    (h : ∀ c ∈ l, c ≠ '\x7b') :
    extractSpanChars l = none := by
  induction l with
  | nil => rfl
  | cons c cs ih =>
    rw [extractSpanChars, if_neg (h c (List.mem_cons_self c cs))]
    exact ih (fun x hx => h x (List.mem_cons_of_mem c hx))

theorem parseResponseFallbackShape :
    (∀ s : String, decodeOk s = false →
      ∃ m, parseResponse s =
          { needsUpdate := false, suggestions := [],
            error := some (Json.str m) } ∧ m ≠ "") ∧
    (∀ s : String, (∀ c ∈ s.data, c ≠ '\x7b') →
      parseResponse s =
        { needsUpdate := false, suggestions := [],
          error := some (Json.str
            "Failed to parse response: No JSON found in response") }) := by
  constructor
  · intro s h
    simp only [decodeOk] at h
    unfold parseResponse
    cases h1 : extractJsonSpan s with
    | none =>
      exact ⟨"Failed to parse response: No JSON found in response", rfl,
        by decide⟩
    | some span =>
      simp only [h1] at h
      simp only [parseResponseWithSpan]
      cases h2 : jsonParse span with
      | none =>
        exact ⟨"Failed to parse response: Unexpected token in JSON", rfl,
          by decide⟩
      | some parsed =>
        simp only [h2] at h
        cases h3 : getField parsed "needsUpdate" with
        | none =>
          simp only [h3]
          exact ⟨"Failed to parse response: Invalid response: needsUpdate must be boolean",
            rfl, by decide⟩
        | some v =>
          simp only [h3] at h
          simp only [h3]
          cases v with
          | bool b =>
            cases h4 : getField parsed "suggestions" with
            | none =>
              simp only [h4]
              exact ⟨"Failed to parse response: Invalid response: suggestions must be array",
                rfl, by decide⟩
            | some w =>
              simp only [h4] at h
              simp only [h4]
              cases w with
              | arr l => simp at h
              | null =>
                exact ⟨"Failed to parse response: Invalid response: suggestions must be array",
                  rfl, by decide⟩
              | bool c =>
                exact ⟨"Failed to parse response: Invalid response: suggestions must be array",
                  rfl, by decide⟩
              | num x =>
                exact ⟨"Failed to parse response: Invalid response: suggestions must be array",
                  rfl, by decide⟩
              | str x =>
                exact ⟨"Failed to parse response: Invalid response: suggestions must be array",
                  rfl, by decide⟩
              | obj fs =>
                exact ⟨"Failed to parse response: Invalid response: suggestions must be array",
                  rfl, by decide⟩
          | null =>
            exact ⟨"Failed to parse response: Invalid response: needsUpdate must be boolean",
              rfl, by decide⟩
          | num x =>
            exact ⟨"Failed to parse response: Invalid response: needsUpdate must be boolean",
              rfl, by decide⟩
          | str x =>
            exact ⟨"Failed to parse response: Invalid response: needsUpdate must be boolean",
              rfl, by decide⟩
          | arr l =>
            exact ⟨"Failed to parse response: Invalid response: needsUpdate must be boolean",
              rfl, by decide⟩
          | obj fs =>
            exact ⟨"Failed to parse response: Invalid response: needsUpdate must be boolean",
              rfl, by decide⟩
  · intro s h
    unfold parseResponse extractJsonSpan
    rw [extractSpanCharsNoLBrace s.data h]
    rfl

/-- Witness: prose without any JSON object fails the decode and yields the
exact no-JSON fallback. -/
theorem parseResponseFallbackShapeWitness :
    decodeOk "the readme is fine as is" = false ∧
    (∃ m, parseResponse "the readme is fine as is" =
        { needsUpdate := false, suggestions := [],
          error := some (Json.str m) } ∧ m ≠ "") ∧
    parseResponse "the readme is fine as is" =
      { needsUpdate := false, suggestions := [],
        error := some (Json.str
          "Failed to parse response: No JSON found in response") } := by
  refine ⟨by decide, ?_, ?_⟩
  · exact parseResponseFallbackShape.1 "the readme is fine as is" (by decide)
  · exact parseResponseFallbackShape.2 "the readme is fine as is" (by decide)

/-- Claim C4 as stated is false: the code returns the parsed object itself,
so a model reply whose JSON object carries its own error property produces
a result with a set diagnostic and needsUpdate true, not the forced
needsUpdate-false shape. -/
theorem parseResponseErrorPassThrough :
    parseResponse
        "\x7b\"needsUpdate\": true, \"suggestions\": [], \"error\": \"x\"\x7d" =
      { needsUpdate := true, suggestions := [],
        error := some (Json.str "x") } ∧
    (parseResponse
        "\x7b\"needsUpdate\": true, \"suggestions\": [], \"error\": \"x\"\x7d").error.isSome
      = true ∧
    (parseResponse
        "\x7b\"needsUpdate\": true, \"suggestions\": [], \"error\": \"x\"\x7d").needsUpdate
      = true := by
  refine ⟨rfl, rfl, rfl⟩

/-! ## The merge engine on raw JSON suggestions (claim C10)

parseResponse returns the parsed object with its suggestions array
unvalidated, and applySingleSuggestion destructures plain properties of
each element, so the JavaScript runtime behaviour on ill-shaped elements
is modelled in an exception monad: reading toLowerCase off a missing or
non-string section, or split off a non-string content, throws. -/

/-- Whether a JSON number lexeme denotes zero (every mantissa digit is
zero; the exponent cannot change that). -/
def jsNumLexZero (lx : String) : Bool :=
  let l := match lx.data with
    | '-' :: r => r
    | l0 => l0
  (l.takeWhile (fun c => isDigitCh c || c == '.')).all
    (fun c => c == '0' || c == '.')

/-- JavaScript truthiness of a property value (none is undefined). -/
def jsTruthy : Option Json → Bool
  | none => false
  | some Json.null => false
  | some (Json.bool b) => b
  | some (Json.num lx) => !(jsNumLexZero lx)
  | some (Json.str s) => !(s == "")
  | some (Json.arr _) => true
  | some (Json.obj _) => true

mutual

/-- JavaScript string coercion of a JSON value (numbers are carried as
their lexemes, which coincides with the coercion for the plain integer
literals a model reply contains). -/
def jsToString : Json → String
  | Json.null => "null"
  | Json.bool true => "true"
  | Json.bool false => "false"
  | Json.num lx => lx
  | Json.str s => s
  | Json.arr l => jsToStringList l
  | Json.obj _ => "[object Object]"

/-- Array.prototype.toString: elements joined by commas, null printed
empty. -/
def jsToStringList : List Json → String
  | [] => ""
  | [j] => (match j with | Json.null => "" | j2 => jsToString j2)
  | j :: rest =>
    (match j with | Json.null => "" | j2 => jsToString j2) ++ "," ++
      jsToStringList rest

end

/-- String coercion of a possibly missing property. -/
def jsToStringO : Option Json → String
  | some j => jsToString j
  | none => "undefined"

/-- Whether a property value is a string. -/
def isStringVal : Option Json → Bool
  | some (Json.str _) => true
  | _ => false

/-- applySingleSuggestion on a raw JSON suggestion element, with the
JavaScript exception behaviour: a falsy content is a no-op before anything
else; then section.toLowerCase() throws unless the section is a string;
in the branches that call newContent.split the call throws unless the
content is a string, while the append branches coerce the content to a
string. -/
def applySingleSuggestionJs (content : String) (sug : Json) :
    Except String String :=
  let sectionF := getField sug "section"
  let contentF := getField sug "content"
  if !(jsTruthy contentF) then Except.ok content
  else
    match sectionF with
    | some (Json.str sec) =>
      let secLower := lowerList sec.data
      if listContains secLower ("new section").data then
        Except.ok (content ++ "\n\n" ++ jsToStringO contentF)
      else
        let plain : Except String String :=
          match findSecIdx sec.data (splitNl content.data) with
          | some _ =>
            match contentF with
            | some (Json.str c) => Except.ok (updateSection content sec c)
            | _ =>
              Except.error "TypeError: newContent.split is not a function"
          | none => Except.ok (content ++ "\n\n" ++ jsToStringO contentF)
        if listContains secLower ("after ").data then
          match afterCapture sec.data with
          | some aSec =>
            match findSecIdx aSec (splitNl content.data) with
            | some _ =>
              match contentF with
              | some (Json.str c) =>
                Except.ok (insertAfterSection content (String.mk aSec) c)
              | _ =>
                Except.error "TypeError: newContent.split is not a function"
            | none =>
              Except.ok (content ++ "\n\n" ++ jsToStringO contentF)
          | none => plain
        else plain
    | _ =>
      Except.error "TypeError: section.toLowerCase is not callable"

/-- applySuggestionsToReadme on raw JSON suggestions: the fold stops at
the first thrown exception, which propagates out of the merge. -/
def applySuggestionsToReadmeJs (content : String) :
    List Json → Except String String
  | [] => Except.ok content
  | sug :: rest =>
    match applySingleSuggestionJs content sug with
    | Except.ok c2 => applySuggestionsToReadmeJs c2 rest
    | Except.error e => Except.error e

/-- Claim C10: the parser checks only the two top-level fields and passes
the suggestion elements through raw (first conjunct: an element lacking
every field but content survives validation untouched), and the merge
engine throws on any reachable suggestion whose content is truthy but
whose section is missing or not a string, so the merge is total only when
every suggestion with non-empty content carries a string section. -/
theorem suggestionsUnvalidatedMergePartial :
    parseResponse
        "\x7b\"needsUpdate\": true, \"suggestions\": [\x7b\"content\": \"x\"\x7d]\x7d" =
      { needsUpdate := true,
        suggestions := [Json.obj [("content", Json.str "x")]],
        error := none } ∧
    (∀ (D : String) (ss : List Json) (sug : Json), sug ∈ ss →
      jsTruthy (getField sug "content") = true →
      isStringVal (getField sug "section") = false →
      ∃ e, applySuggestionsToReadmeJs D ss = Except.error e) := by
  constructor
  · rfl
  · intro D ss
    induction ss generalizing D with
    | nil => intro sug hmem; exact absurd hmem (List.not_mem_nil sug)
    | cons a rest ih =>
      intro sug hmem htru hsec
      rcases List.mem_cons.mp hmem with heq | hmem2
      · subst heq
        have herr : applySingleSuggestionJs D sug =
            Except.error "TypeError: section.toLowerCase is not callable" := by
          cases hs : getField sug "section" with
          | none => simp [applySingleSuggestionJs, htru, hs]
          | some v =>
            cases v with
            | str s2 => rw [hs] at hsec; simp [isStringVal] at hsec
            | null => simp [applySingleSuggestionJs, htru, hs]
            | bool b => simp [applySingleSuggestionJs, htru, hs]
            | num x => simp [applySingleSuggestionJs, htru, hs]
            | arr l => simp [applySingleSuggestionJs, htru, hs]
            | obj fs => simp [applySingleSuggestionJs, htru, hs]
        refine ⟨"TypeError: section.toLowerCase is not callable", ?_⟩
        unfold applySuggestionsToReadmeJs
        rw [herr]
      · cases hstep : applySingleSuggestionJs D a with
        | ok c2 =>
          obtain ⟨e, he⟩ := ih c2 sug hmem2 htru hsec
          refine ⟨e, ?_⟩
          unfold applySuggestionsToReadmeJs
          rw [hstep]
          exact he
        | error e =>
          refine ⟨e, ?_⟩
          unfold applySuggestionsToReadmeJs
          rw [hstep]

/-- Witness: the raw suggestion that passed validation in the first
conjunct makes the merge throw. -/
theorem suggestionsUnvalidatedMergePartialWitness :
    jsTruthy (getField (Json.obj [("content", Json.str "x")]) "content")
      = true ∧
    isStringVal (getField (Json.obj [("content", Json.str "x")]) "section")
      = false ∧
    ∃ e, applySuggestionsToReadmeJs "# Title"
        [Json.obj [("content", Json.str "x")]] = Except.error e := by
  refine ⟨rfl, rfl, ?_⟩
  exact suggestionsUnvalidatedMergePartial.2 "# Title"
    [Json.obj [("content", Json.str "x")]]
    (Json.obj [("content", Json.str "x")])
    (List.mem_cons_self _ _) rfl rfl

/-! ## Webhook Dispatcher, from main in
src/packages/readme-bot/webhook/index.ts

The handler is modelled as a pure decision function from the delivery to a
response and the downstream call it triggers (the model assumes the
triggered analysis or commit succeeds, which is when the shared trailing
200 response is reached); a JavaScript TypeError from dereferencing a
missing payload object is an exception caught by the surrounding
try/catch, which maps it to the 500 response. -/

structure PrPayload where
  number : Nat
deriving Repr, DecidableEq

structure IssuePayload where
  number : Nat
  pullRequest : Option String
deriving Repr, DecidableEq

structure CommentPayload where
  body : Option String
  userLogin : Option String
deriving Repr, DecidableEq

structure RepoPayload where
  fullName : String
  name : String
  ownerLogin : String
deriving Repr, DecidableEq

structure InstPayload where
  id : String
deriving Repr, DecidableEq

/-- The payload fields the handler destructures; each nested object may be
missing. A missing payload altogether (the zero-keys check) is the none of
the surrounding option in the event. -/
structure WebhookPayload where
  action : Option String
  pullRequest : Option PrPayload
  issue : Option IssuePayload
  comment : Option CommentPayload
  repository : Option RepoPayload
  installation : Option InstPayload
deriving Repr, DecidableEq

/-- The function event: the method and the github event-type header, plus
the payload spread over the remaining keys. -/
structure FunctionEvent where
  method : String
  eventType : Option String
  payload : Option WebhookPayload
deriving Repr, DecidableEq

/-- The downstream work a delivery triggers. -/
inductive Effect where
  | noop
  | analyze (owner repo : String) (number : Nat) (installationId : String)
  | commitFromAnalysis (owner repo : String) (number : Nat)
      (installationId : String)
deriving Repr, DecidableEq

structure FnResponse where
  statusCode : Nat
  body : String
deriving Repr, DecidableEq

/-- Reading a property off a possibly undefined object: none throws a
TypeError. -/
def jsGet {α : Type} : Option α → Except String α
  | some a => Except.ok a
  | none => Except.error "TypeError: cannot read properties of undefined"

/-- The body of the try block of main, in source order: the 405 method
gate, the 400 empty-payload gate, the 200 ignore of other event types;
for a pull-request event the 400 missing-pull-request gate, the log line
that dereferences the repository, the 200 ignore of other actions, the
log line that dereferences the installation, then the analysis call; for
an issue-comment event the 400 missing-issue-or-comment gate, the 200
ignores of other actions, of non-pull-request issues and of other comment
bodies (the body is trimmed and compared with the apply literal), the log
line that dereferences the repository, the comment user and the
installation, then the commit call. -/
def webhookMainBody (e : FunctionEvent) : Except String (FnResponse × Effect) :=
  if e.method != "POST" then
    Except.ok (FnResponse.mk 405 "Method not allowed",
      Effect.noop)
  else
    match e.payload with
    | none =>
      Except.ok (FnResponse.mk 400 "No payload provided",
        Effect.noop)
    | some payload =>
      if e.eventType != some "pull_request" ∧
          e.eventType != some "issue_comment" then
        Except.ok (FnResponse.mk 200 "Event ignored",
          Effect.noop)
      else if e.eventType = some "pull_request" then
        match payload.pullRequest with
        | none =>
          Except.ok (FnResponse.mk 400 "Invalid pull request payload", Effect.noop)
        | some pr =>
          match jsGet payload.repository with
          | Except.error err => Except.error err
          | Except.ok repo =>
            if payload.action != some "opened" ∧
                payload.action != some "synchronize" ∧
                payload.action != some "reopened" then
              Except.ok (FnResponse.mk 200 "PR action ignored", Effect.noop)
            else
              match jsGet payload.installation with
              | Except.error err => Except.error err
              | Except.ok inst =>
                Except.ok (FnResponse.mk 200 "Analysis complete",
                  Effect.analyze repo.ownerLogin repo.name pr.number inst.id)
      else
        match payload.issue, payload.comment with
        | none, _ =>
          Except.ok (FnResponse.mk 400 "Invalid issue comment payload", Effect.noop)
        | some _, none =>
          Except.ok (FnResponse.mk 400 "Invalid issue comment payload", Effect.noop)
        | some issue, some comment =>
          if payload.action != some "created" then
            Except.ok (FnResponse.mk 200 "Comment action ignored", Effect.noop)
          else if issue.pullRequest = none then
            Except.ok (FnResponse.mk 200 "Non-PR comment ignored", Effect.noop)
          else
            match jsGet comment.body with
            | Except.error err => Except.error err
            | Except.ok bodyStr =>
              if jsTrim bodyStr != "@prototyp-readme-bot apply" then
                Except.ok (FnResponse.mk 200 "Comment ignored - not apply command",
                  Effect.noop)
              else
                match jsGet payload.repository with
                | Except.error err => Except.error err
                | Except.ok repo =>
                  match jsGet comment.userLogin with
                  | Except.error err => Except.error err
                  | Except.ok _ =>
                    match jsGet payload.installation with
                    | Except.error err => Except.error err
                    | Except.ok inst =>
                      Except.ok (FnResponse.mk 200 "Analysis complete",
                        Effect.commitFromAnalysis repo.ownerLogin repo.name
                          issue.number inst.id)

/-- main: the try block with the catch mapping any thrown error to the 500
response (a throw always happens before the downstream call is made, so
the effect of a failed delivery is none). -/
def webhookMain (e : FunctionEvent) : FnResponse × Effect :=
  match webhookMainBody e with
  | Except.ok r => r
  | Except.error _ =>
    (FnResponse.mk 500 "Analysis failed", Effect.noop)

/-! ## Dispatcher decisions (claims C5 and C6) -/

/-- Claim C5 (amended): the apply-command comparison trims the comment body
first, so a body that is the exact apply literal followed by a trailing
space matches and the delivery proceeds to the commit path with a 200
response; only a body still differing from the literal after the trim
(for instance one with doubled internal whitespace) is ignored with a 200
response and no downstream call. -/
theorem applyCommandTrimThenDispatch :
    (∀ (owner rn fn inst user url : String) (n : Nat)
        (prq : Option PrPayload),
      webhookMain ⟨"POST", some "issue_comment",
          some ⟨some "created", prq, some ⟨n, some url⟩,
            some ⟨some "@prototyp-readme-bot apply ", some user⟩,
            some ⟨fn, rn, owner⟩, some ⟨inst⟩⟩⟩ =
        (FnResponse.mk 200 "Analysis complete",
          Effect.commitFromAnalysis owner rn n inst)) ∧
    (∀ (owner rn fn inst user url b : String) (n : Nat)
        (prq : Option PrPayload),
      jsTrim b ≠ "@prototyp-readme-bot apply" →
      webhookMain ⟨"POST", some "issue_comment",
          some ⟨some "created", prq, some ⟨n, some url⟩,
            some ⟨some b, some user⟩, some ⟨fn, rn, owner⟩,
            some ⟨inst⟩⟩⟩ =
        (FnResponse.mk 200 "Comment ignored - not apply command",
          Effect.noop)) := by
  constructor
  · intro owner rn fn inst user url n prq
    rfl
  · intro owner rn fn inst user url b n prq hb
    have hb2 : (jsTrim b == "@prototyp-readme-bot apply") = false :=
      beq_eq_false_iff_ne.mpr hb
    simp [webhookMain, webhookMainBody, jsGet, hb2]
    rw [if_neg hb]

/-- Witness: the doubled-space body differs from the literal after the
trim and is ignored; the right conjunct of the theorem at that body. -/
theorem applyCommandTrimThenDispatchWitness :
    jsTrim "@prototyp-readme-bot  apply" ≠ "@prototyp-readme-bot apply" ∧
    webhookMain ⟨"POST", some "issue_comment",
        some ⟨some "created", none, some ⟨3, some "u"⟩,
          some ⟨some "@prototyp-readme-bot  apply", some "alice"⟩,
          some ⟨"o/r", "r", "o"⟩, some ⟨"i1"⟩⟩⟩ =
      (FnResponse.mk 200 "Comment ignored - not apply command",
        Effect.noop) := by
  refine ⟨by decide, ?_⟩
  exact applyCommandTrimThenDispatch.2 "o" "r" "o/r" "i1" "alice" "u"
    "@prototyp-readme-bot  apply" 3 none (by decide)

/-- Claim C5 as stated is false: the delivery whose comment body is the
apply literal followed by one trailing space is not ignored; the trim
removes the space, the body matches exactly, and the dispatcher triggers
the commit path. -/
theorem applyCommandTrailingSpaceNotIgnored :
    webhookMain ⟨"POST", some "issue_comment",
        some ⟨some "created", none, some ⟨5, some "u"⟩,
          some ⟨some "@prototyp-readme-bot apply ", some "alice"⟩,
          some ⟨"o/r", "r", "o"⟩, some ⟨"i1"⟩⟩⟩ =
      (FnResponse.mk 200 "Analysis complete",
        Effect.commitFromAnalysis "o" "r" 5 "i1") ∧
    (webhookMain ⟨"POST", some "issue_comment",
        some ⟨some "created", none, some ⟨5, some "u"⟩,
          some ⟨some "@prototyp-readme-bot apply ", some "alice"⟩,
          some ⟨"o/r", "r", "o"⟩, some ⟨"i1"⟩⟩⟩).2 ≠ Effect.noop := by
  refine ⟨rfl, by decide⟩

/-- Claim C6 (amended): a missing pull_request object on a pull-request
event, and a missing issue or comment object on an issue-comment event,
are 400 responses; but a missing repository object or a missing
installation object is dereferenced inside the handler before the
downstream call, and the thrown TypeError is mapped by the surrounding
catch to the 500 response. -/
theorem malformedPayloadStatusSplit :
    (∀ (act : Option String) (iss : Option IssuePayload)
        (com : Option CommentPayload) (repo : Option RepoPayload)
        (inst : Option InstPayload),
      webhookMain ⟨"POST", some "pull_request",
          some ⟨act, none, iss, com, repo, inst⟩⟩ =
        (FnResponse.mk 400 "Invalid pull request payload", Effect.noop)) ∧
    (∀ (act : Option String) (prn : Nat) (iss : Option IssuePayload)
        (com : Option CommentPayload) (inst : Option InstPayload),
      webhookMain ⟨"POST", some "pull_request",
          some ⟨act, some ⟨prn⟩, iss, com, none, inst⟩⟩ =
        (FnResponse.mk 500 "Analysis failed", Effect.noop)) ∧
    (∀ (prn : Nat) (iss : Option IssuePayload)
        (com : Option CommentPayload) (fn rn own : String),
      webhookMain ⟨"POST", some "pull_request",
          some ⟨some "opened", some ⟨prn⟩, iss, com,
            some ⟨fn, rn, own⟩, none⟩⟩ =
        (FnResponse.mk 500 "Analysis failed", Effect.noop)) ∧
    (∀ (act : Option String) (pr : Option PrPayload)
        (com : Option CommentPayload) (repo : Option RepoPayload)
        (inst : Option InstPayload),
      webhookMain ⟨"POST", some "issue_comment",
          some ⟨act, pr, none, com, repo, inst⟩⟩ =
        (FnResponse.mk 400 "Invalid issue comment payload",
          Effect.noop)) ∧
    (∀ (act : Option String) (pr : Option PrPayload)
        (iss : IssuePayload) (repo : Option RepoPayload)
        (inst : Option InstPayload),
      webhookMain ⟨"POST", some "issue_comment",
          some ⟨act, pr, some iss, none, repo, inst⟩⟩ =
        (FnResponse.mk 400 "Invalid issue comment payload",
          Effect.noop)) := by
  refine ⟨fun act iss com repo inst => rfl,
    fun act prn iss com inst => rfl,
    fun prn iss com fn rn own => rfl,
    fun act pr com repo inst => rfl,
    fun act pr iss repo inst => rfl⟩

/-- Claim C6 as stated is false: the POST pull-request delivery whose
payload carries a valid pull_request and action but no repository object
is answered with the 500 response (the handler dereferences the missing
repository and the catch maps the TypeError to 500), not a 400-class
response. -/
theorem missingRepositoryGives500 :
    webhookMain ⟨"POST", some "pull_request",
        some ⟨some "opened", some ⟨1⟩, none, none, none, some ⟨"i1"⟩⟩⟩ =
      (FnResponse.mk 500 "Analysis failed", Effect.noop) ∧
    (webhookMain ⟨"POST", some "pull_request",
        some ⟨some "opened", some ⟨1⟩, none, none, none,
          some ⟨"i1"⟩⟩⟩).1.statusCode = 500 := by
  refine ⟨rfl, rfl⟩

/-! ## Reporting: the analysis comment (claim C2)

The webhook Reporting step is createAnalysisComment of
src/packages/readme-bot/webhook/index.ts, which formats the marker comment
and calls the createComment endpoint; the pull request's comment list is
the explicit state. The timestamp the formatter embeds is a parameter. -/

/-- The typed analysis surface the webhook formats (the TypeScript
AnalysisResult with typed suggestions). -/
structure AnalysisResultT where
  needsUpdate : Bool
  suggestions : List Suggestion
  error : Option String
deriving Repr, DecidableEq

/-- The commit outcome surface used by the formatter. -/
structure CommitResult where
  suggestions : Nat
  url : String
deriving Repr, DecidableEq

/-- The numbered suggestion list built by the forEach of
formatAnalysisComment. -/
def suggestionListLines : Nat → List Suggestion → String
  | _, [] => ""
  | i, s :: rest =>
    toString (i + 1) ++ ". **" ++ s.type ++ "** - " ++ s.sectionName ++
      "\n   - " ++ s.description ++ "\n   - Priority: " ++ s.priority ++
      "\n\n" ++ suggestionListLines (i + 1) rest

/-- The tail of the formatted comment after the fixed marker header. -/
def formatAnalysisRest (analysis : AnalysisResultT)
    (hasExistingReadme : Bool) (commitResult : Option CommitResult)
    (error : Option String) (timestamp : String) : String :=
  "\n## 🤖 README Analysis Results\n\n" ++
  (if analysis.needsUpdate then
    "✅ **Analysis Complete** - README updates recommended\n\n" ++
    (if analysis.suggestions.length > 0 then
      "### 📝 Suggested Improvements (" ++
        toString analysis.suggestions.length ++ ")\n\n" ++
        suggestionListLines 0 analysis.suggestions
    else "") ++
    (match commitResult with
     | some cr =>
       "### ✅ Changes Applied\n\n- Successfully committed " ++
         toString cr.suggestions ++
         " README improvements\n- [View commit](" ++ cr.url ++ ")\n\n"
     | none =>
       match error with
       | some err =>
         "### ❌ Commit Failed\n\n- Failed to apply README changes: " ++
           err ++ "\n- Changes need to be applied manually\n\n"
       | none =>
         "### ⏳ Next Steps\n\n- README updates will be committed automatically\n\n")
  else
    "✅ **Analysis Complete** - No README updates needed\n\n" ++
      "The current README adequately covers the changes in this PR.\n\n") ++
  (if hasExistingReadme then ""
   else
    "ℹ️ *No existing README.md found. Consider adding one to document your project.*\n\n") ++
  "---\n*Analysis performed at " ++ timestamp ++ "*\n" ++
  "*Powered by [Claude AI](https://claude.ai) • README-Bot v1.0*"

/-- formatAnalysisComment of the webhook: the fixed marker followed by the
formatted body. -/
def formatAnalysisComment (analysis : AnalysisResultT)
    (hasExistingReadme : Bool) (commitResult : Option CommitResult)
    (error : Option String) (timestamp : String) : String :=
  "<!-- README-BOT-ANALYSIS -->" ++
    formatAnalysisRest analysis hasExistingReadme commitResult error
      timestamp

/-- createAnalysisComment of the webhook on the comment-list state: it
formats the comment (two-argument call, so no commit result and no error)
and always calls the createComment endpoint, which appends a new comment;
no lookup of an existing comment happens on this path. -/
def createAnalysisComment (comments : List String)
    (analysis : AnalysisResultT) (hasExistingReadme : Bool)
    (timestamp : String) : List String :=
  comments ++ [formatAnalysisComment analysis hasExistingReadme none none
    timestamp]

/-- findExistingComment of github-client.js on the comment-list state: the
first comment whose body includes the marker (the default marker of the
client; the webhook formatter embeds a different, longer marker). -/
def findExistingComment (comments : List String)
    (commentMarker : String := "<!-- README-BOT -->") : Option Nat :=
  go 0 comments
where
  go : Nat → List String → Option Nat
    | _, [] => none
    | i, b :: rest =>
      if strContains b commentMarker then some i else go (i + 1) rest

/-- The number of comments on the thread carrying the given marker. -/
def countMarkerComments (comments : List String) (marker : String) : Nat :=
  (comments.filter (fun b => strContains b marker)).length

/-- A run of deliveries that all reach the Reporting step, each with its
analysis outcome, readme flag and timestamp. -/
def runReportingSteps (comments : List String) :
    List (AnalysisResultT × Bool × String) → List String
  | [] => comments
  | d :: ds =>
    runReportingSteps (createAnalysisComment comments d.1 d.2.1 d.2.2) ds

theorem startsWithCSRefl (p r : List Char) :
    startsWithCS p (p ++ r) = true := by
  induction p with
  | nil => rfl
  | cons c cs ih => simp [startsWithCS, ih]

theorem strContainsAppendRight (m r : String) :
    strContains (m ++ r) m = true := by
  unfold strContains
  rw [strDataAppend, listContains.eq_def, startsWithCSRefl]
  rfl

theorem formattedCommentHasMarker (analysis : AnalysisResultT)
    (h : Bool) (cr : Option CommitResult) (er : Option String)
    (t : String) :
    strContains (formatAnalysisComment analysis h cr er t)
      "<!-- README-BOT-ANALYSIS -->" = true := by
  unfold formatAnalysisComment
  exact strContainsAppendRight "<!-- README-BOT-ANALYSIS -->" _

theorem countMarkerAppend (comments : List String) (b : String)
    (m : String) (hb : strContains b m = true) :
    countMarkerComments (comments ++ [b]) m =
      countMarkerComments comments m + 1 := by
  unfold countMarkerComments
  rw [List.filter_append, List.length_append]
  simp [hb]

/-- Claim C2 (amended): the webhook Reporting step never reconciles; every
delivery that reaches it appends one more marker-bearing comment through
createComment, so after n deliveries the pull request carries n more bot
status comments; the marker-keyed find-and-update pair exists on the
repository client but is not called on this path. -/
theorem reportingStepAccumulatesComments (comments : List String)
    (ds : List (AnalysisResultT × Bool × String)) :
    countMarkerComments (runReportingSteps comments ds)
        "<!-- README-BOT-ANALYSIS -->" =
      countMarkerComments comments "<!-- README-BOT-ANALYSIS -->" +
        ds.length := by
  induction ds generalizing comments with
  | nil => rfl
  | cons d ds ih =>
    show countMarkerComments
        (runReportingSteps (createAnalysisComment comments d.1 d.2.1 d.2.2)
          ds) "<!-- README-BOT-ANALYSIS -->" = _
    rw [ih, createAnalysisComment,
      countMarkerAppend _ _ _ (formattedCommentHasMarker _ _ _ _ _)]
    simp [List.length_cons]
    omega

/-- Claim C2 as stated is false: two deliveries reaching the Reporting
step on the same pull request leave two bot marker comments, although a
marker comment already existed when the second delivery ran; the comment
is not updated in place. -/
theorem repeatedReportingNotIdempotent :
    countMarkerComments
        (createAnalysisComment
          (createAnalysisComment []
            { needsUpdate := false, suggestions := [], error := none }
            true "2024-01-01T00:00:00.000Z")
          { needsUpdate := false, suggestions := [], error := none }
          true "2024-01-02T00:00:00.000Z")
        "<!-- README-BOT-ANALYSIS -->" = 2 ∧
    countMarkerComments
        (createAnalysisComment []
          { needsUpdate := false, suggestions := [], error := none }
          true "2024-01-01T00:00:00.000Z")
        "<!-- README-BOT-ANALYSIS -->" = 1 := by
  constructor
  · unfold createAnalysisComment
    rw [countMarkerAppend _ _ _ (formattedCommentHasMarker _ _ _ _ _),
      countMarkerAppend _ _ _ (formattedCommentHasMarker _ _ _ _ _)]
    rfl
  · unfold createAnalysisComment
    rw [countMarkerAppend _ _ _ (formattedCommentHasMarker _ _ _ _ _)]
    rfl

/-! ## Read/merge/commit data flow (claim C9)

The repository is an explicit environment: the README text and README file
sha per owner, repository and ref, the pull-request record and the diff
per pull number. getCurrentReadme and commitReadmeUpdates follow
github-client.js; the webhook entry points call getCurrentReadme with two
arguments, leaving the ref at its default, exactly as every caller in the
source does. The analysis is an oracle function of the diff and the
readme handed to it. -/

/-- The pull-request record commitReadmeUpdates reads head data from. -/
structure PrRecord where
  headBranch : String
  headOwner : String
  headRepo : String
  title : String
  body : String
  changedFiles : List String
deriving Repr, DecidableEq

/-- The hosting platform state one delivery reads. -/
structure RepoWorld where
  readmeAt : String → String → String → String
  readmeShaAt : String → String → String → Option String
  prAt : String → String → Nat → PrRecord
  diffAt : String → String → Nat → String

/-- getCurrentReadme of github-client.js: the README of the named
repository at the given ref, which defaults to main. -/
def getCurrentReadme (w : RepoWorld) (owner repo : String)
    (ref : String := "main") : String :=
  w.readmeAt owner repo ref

/-- The createOrUpdateFileContents call a commit issues. -/
structure CommitAction where
  owner : String
  repo : String
  branch : String
  content : String
  sha : Option String
deriving Repr, DecidableEq

/-- commitReadmeUpdates of github-client.js: resolve the head branch and
head repository from the pull request, merge the suggestions into the
currentReadme argument, stop with the no-op result when the text is
unchanged, otherwise write the merged text to the head repository's head
branch, conditioned on the sha of the README there (absent when the file
does not exist on the head branch). -/
def commitReadmeUpdates (w : RepoWorld) (owner repo : String)
    (pullNumber : Nat) (suggestions : List Suggestion)
    (currentReadme : String) : Option CommitAction :=
  let pr := w.prAt owner repo pullNumber
  let updatedReadme := applySuggestionsToReadme currentReadme suggestions
  if updatedReadme = currentReadme then none
  else
    some ⟨pr.headOwner, pr.headRepo, pr.headBranch, updatedReadme,
      w.readmeShaAt pr.headOwner pr.headRepo pr.headBranch⟩

/-- analyzePR of the webhook, data-flow surface: the readme it fetches
(two-argument getCurrentReadme call) and the analysis it obtains; the
pull-request path posts a comment and commits nothing. -/
def analyzePRModel (w : RepoWorld)
    (analyze : String → String → AnalysisResultT) (owner repo : String)
    (n : Nat) : String × AnalysisResultT :=
  let readme := getCurrentReadme w owner repo
  let diff := w.diffAt owner repo n
  (readme, analyze diff readme)

/-- commitReadmeFromAnalysis of the webhook: re-fetch, re-analyze, and
when an update is needed hand the same fetched readme to
commitReadmeUpdates. -/
def commitReadmeFromAnalysisModel (w : RepoWorld)
    (analyze : String → String → AnalysisResultT) (owner repo : String)
    (n : Nat) : Option CommitAction :=
  let readme := getCurrentReadme w owner repo
  let diff := w.diffAt owner repo n
  let analysis := analyze diff readme
  if analysis.needsUpdate = false then none
  else commitReadmeUpdates w owner repo n analysis.suggestions readme

/-- Claim C9: on both entry paths the readme handed to analysis and to the
merge is the one at ref main of the base repository (the default ref of
getCurrentReadme, which no caller overrides), while any resulting write
goes to the head repository's head branch; the head branch's own README is
consulted only for its sha, never as the merge input. The final conjunct
separates the two inputs at a world where the head branch README differs
from main outside the replaced section. -/
theorem readFromMainCommitToHead :
    (∀ (w : RepoWorld) (analyze : String → String → AnalysisResultT)
        (owner repo : String) (n : Nat),
      (analyzePRModel w analyze owner repo n).1 =
        w.readmeAt owner repo "main" ∧
      (∀ act, commitReadmeFromAnalysisModel w analyze owner repo n =
          some act →
        act.owner = (w.prAt owner repo n).headOwner ∧
        act.repo = (w.prAt owner repo n).headRepo ∧
        act.branch = (w.prAt owner repo n).headBranch ∧
        act.content = applySuggestionsToReadme
          (w.readmeAt owner repo "main")
          (analyze (w.diffAt owner repo n)
            (w.readmeAt owner repo "main")).suggestions)) ∧
    (let sug : Suggestion := ⟨"setup", "Setup", "d", "high", "## Setup\nnew"⟩
     let wSep : RepoWorld :=
      { readmeAt := fun _ _ ref =>
          if ref = "main" then "# Intro\nmain\n## Setup\nold"
          else "# Intro\nhead\n## Setup\nold",
        readmeShaAt := fun _ _ _ => some "sha0",
        prAt := fun _ _ _ => ⟨"feature", "headowner", "headrepo", "t", "b", []⟩,
        diffAt := fun _ _ _ => "diff" }
     commitReadmeFromAnalysisModel wSep
        (fun _ _ => ⟨true, [sug], none⟩) "baseowner" "baserepo" 1 =
      some ⟨"headowner", "headrepo", "feature",
        applySuggestionsToReadme "# Intro\nmain\n## Setup\nold" [sug],
        some "sha0"⟩ ∧
     applySuggestionsToReadme "# Intro\nmain\n## Setup\nold" [sug] ≠
       applySuggestionsToReadme "# Intro\nhead\n## Setup\nold" [sug]) := by
  constructor
  · intro w analyze owner repo n
    constructor
    · rfl
    · intro act hact
      unfold commitReadmeFromAnalysisModel commitReadmeUpdates
        getCurrentReadme at hact
      by_cases h1 : (analyze (w.diffAt owner repo n)
          (w.readmeAt owner repo "main")).needsUpdate = false
      · rw [if_pos h1] at hact
        exact absurd hact (Option.noConfusion)
      · rw [if_neg h1] at hact
        by_cases h2 : applySuggestionsToReadme
            (w.readmeAt owner repo "main")
            (analyze (w.diffAt owner repo n)
              (w.readmeAt owner repo "main")).suggestions =
            w.readmeAt owner repo "main"
        · rw [if_pos h2] at hact
          exact absurd hact (Option.noConfusion)
        · rw [if_neg h2] at hact
          have := Option.some.inj hact
          subst this
          exact ⟨rfl, rfl, rfl, rfl⟩
  · exact ⟨by decide, by decide⟩

/-- Witness for the implication of the universal part: at the separation
world the commit action exists, and the theorem yields its head-branch
targeting and its merge input. -/
theorem readFromMainCommitToHeadWitness :
    commitReadmeFromAnalysisModel
        { readmeAt := fun _ _ ref =>
            if ref = "main" then "# Intro\nmain\n## Setup\nold"
            else "# Intro\nhead\n## Setup\nold",
          readmeShaAt := fun _ _ _ => some "sha0",
          prAt := fun _ _ _ =>
            ⟨"feature", "headowner", "headrepo", "t", "b", []⟩,
          diffAt := fun _ _ _ => "diff" }
        (fun _ _ =>
          ⟨true, [⟨"setup", "Setup", "d", "high", "## Setup\nnew"⟩], none⟩)
        "baseowner" "baserepo" 1 =
      some ⟨"headowner", "headrepo", "feature",
        applySuggestionsToReadme "# Intro\nmain\n## Setup\nold"
          [⟨"setup", "Setup", "d", "high", "## Setup\nnew"⟩],
        some "sha0"⟩ ∧
    (⟨"headowner", "headrepo", "feature",
        applySuggestionsToReadme "# Intro\nmain\n## Setup\nold"
          [⟨"setup", "Setup", "d", "high", "## Setup\nnew"⟩],
        some "sha0"⟩ : CommitAction).branch = "feature" := by
  constructor
  · decide
  · have h := (readFromMainCommitToHead.1
      { readmeAt := fun _ _ ref =>
          if ref = "main" then "# Intro\nmain\n## Setup\nold"
          else "# Intro\nhead\n## Setup\nold",
        readmeShaAt := fun _ _ _ => some "sha0",
        prAt := fun _ _ _ =>
          ⟨"feature", "headowner", "headrepo", "t", "b", []⟩,
        diffAt := fun _ _ _ => "diff" }
      (fun _ _ =>
        ⟨true, [⟨"setup", "Setup", "d", "high", "## Setup\nnew"⟩], none⟩)
      "baseowner" "baserepo" 1).2
      ⟨"headowner", "headrepo", "feature",
        applySuggestionsToReadme "# Intro\nmain\n## Setup\nold"
          [⟨"setup", "Setup", "d", "high", "## Setup\nnew"⟩],
        some "sha0"⟩ (by decide)
    exact h.2.2.1
